import Mathlib

/-!
Shallow embedding of the batch image-generation script src/index.js.

The script reads a newline-delimited ingredient list, mints a signed token
from an id.secret API key, optionally derives a style descriptor from a
reference image via a vision endpoint, and then, per ingredient, builds a
prompt, calls a generation endpoint and downloads the resulting image.

Strings are modelled as Lean String values over their character lists, and
the JavaScript string primitives used by the script (split, trim, includes,
replace-first) are defined here with JavaScript semantics. External effects
(file reads, network calls) are modelled by explicit environment values and
by traces of events, so that ordering and error-propagation claims can be
stated about the code.
-/

set_option maxRecDepth 8000

namespace ImgGen

/-- Character class removed by the JavaScript trim method: ASCII whitespace,
line terminators, NBSP, BOM and the Unicode space separators. -/
def isJsWhitespace (c : Char) : Bool :=
  c == ' ' || c == '\t' || c == '\n' || c == '\r' ||
  c == '\x0b' || c == '\x0c' || c == '\u00A0' || c == '\uFEFF' ||
  c == '\u1680' || c == '\u2000' || c == '\u2001' || c == '\u2002' ||
  c == '\u2003' || c == '\u2004' || c == '\u2005' || c == '\u2006' ||
  c == '\u2007' || c == '\u2008' || c == '\u2009' || c == '\u200A' ||
  c == '\u2028' || c == '\u2029' || c == '\u202F' || c == '\u205F' ||
  c == '\u3000'

/-- JavaScript trim on a character list: drop whitespace from both ends. -/
def jsTrimL (l : List Char) : List Char :=
  ((l.dropWhile isJsWhitespace).reverse.dropWhile isJsWhitespace).reverse

/-- JavaScript String.prototype.trim. -/
def jsTrim (s : String) : String :=
  String.mk (jsTrimL s.data)

/-- Split a character list at every character satisfying the predicate.
Mirrors JavaScript String.prototype.split with a single-character
separator (or a regex alternation of single characters): the result is
always nonempty, and separators at the ends produce empty segments. -/
def splitPredL (p : Char → Bool) : List Char → List (List Char)
  | [] => [[]]
  | c :: cs =>
    if p c then
      [] :: splitPredL p cs
    else
      match splitPredL p cs with
      | [] => [[c]]
      | l :: ls => (c :: l) :: ls

/-- JavaScript split of a string on a character class. -/
def jsSplitOn (p : Char → Bool) (s : String) : List String :=
  (splitPredL p s.data).map String.mk

/-- Separator class of the split at src/index.js line 162: the dot. -/
def isDotChar (c : Char) : Bool := c == '.'

/-- Separator class of the split at src/index.js line 179: the newline. -/
def isNewlineChar (c : Char) : Bool := c == '\n'

/-- Separator class of the regex split at src/index.js line 289: Western
or full-width comma. -/
def isCommaChar (c : Char) : Bool := c == ',' || c == '，'

/-- The GetSubstitution processing ECMAScript applies to the replacement
string of String.prototype.replace, for a plain string pattern: a double
dollar becomes one dollar, dollar-ampersand becomes the matched text,
dollar followed by the grave accent becomes the subject text before the
match, dollar followed by the apostrophe becomes the subject text after
the match; with a string pattern there are no capture groups, so every
other dollar sequence, and a trailing dollar, stay literal. The grave
accent and the apostrophe are written by code point, 96 and 39. -/
def getSubstitution (matched before after : List Char) : List Char → List Char
  | [] => []
  | [c] => [c]
  | c :: d :: rest =>
    if c = '$' then
      if d = '$' then '$' :: getSubstitution matched before after rest
      else if d = '&' then matched ++ getSubstitution matched before after rest
      else if d = Char.ofNat 96 then before ++ getSubstitution matched before after rest
      else if d = Char.ofNat 39 then after ++ getSubstitution matched before after rest
      else c :: getSubstitution matched before after (d :: rest)
    else c :: getSubstitution matched before after (d :: rest)

/-- Scan for the first occurrence of the nonempty pattern, keeping the
characters already passed (in reverse) so the substitution can see the
text before the match; on a match, emit the processed replacement and the
unscanned remainder. -/
def replaceFirstAux (pat rep : List Char) : List Char → List Char → List Char
  | _, [] => []
  | seen, c :: cs =>
    if pat.isPrefixOf (c :: cs) then
      getSubstitution pat seen.reverse ((c :: cs).drop pat.length) rep ++
        (c :: cs).drop pat.length
    else
      c :: replaceFirstAux pat rep (c :: seen) cs

/-- Replace the first occurrence of the pattern in the subject list with the
replacement, as JavaScript String.prototype.replace does for a plain string
pattern, including the dollar substitution in the replacement. An empty
pattern matches at position zero. -/
def listReplaceFirst (pat rep subject : List Char) : List Char :=
  if pat.isEmpty then getSubstitution pat [] subject rep ++ subject
  else replaceFirstAux pat rep [] subject

/-- JavaScript String.prototype.replace with a plain string pattern:
replaces the first occurrence only and processes dollar sequences in the
replacement. Used at src/index.js line 304. -/
def jsReplaceFirst (s pat rep : String) : String :=
  String.mk (listReplaceFirst pat.data rep.data s.data)

/-- JavaScript truthiness of a nullable string: null and the empty string
are falsy. -/
def jsTruthyStr : Option String → Bool
  | none => false
  | some s => !(s == "")

/-- Constant DEFAULT_PROMPT_TEMPLATE, src/index.js line 152. -/
def DEFAULT_PROMPT_TEMPLATE : String :=
  "A flat illustration of {ingredient}, centered, clean white background, simple style, no text, no watermark, high quality, for mobile app UI"

/-- Constant OUTPUT_DIR, src/index.js line 149. -/
def OUTPUT_DIR : String := "output"

/-- Constant INPUT_FILE, src/index.js line 148. -/
def INPUT_FILE : String := "ingredients.txt"

/-- Constant REFERENCE_IMAGE, src/index.js line 150. -/
def REFERENCE_IMAGE : String := "style_reference.jpg"

/-- The startup API key check at src/index.js lines 155-158: the run is
terminated when the key is absent (the environment variable is undefined),
empty (falsy) or contains no dot. Returns true when the check fails. -/
def apiKeyCheckFails : Option String → Bool
  | none => true
  | some s => s == "" || !(s.data.any isDotChar)

/-- The fields of the signed token built by generateToken, src/index.js
lines 161-173: the payload fields api_key, exp and timestamp, the header
fields alg and sign_type, and the secret the payload is signed with.
Timestamps are in seconds. -/
structure SignedToken where
  api_key : String
  exp : Nat
  timestamp : Nat
  alg : String
  sign_type : String
  secret : String
deriving DecidableEq

/-- generateToken, src/index.js lines 161-173. The key is split on dots and
destructured into its first two segments; further segments are dropped.
When the split yields fewer than two segments the secret is undefined and
jwt.sign throws, modelled as none. The payload literal reads Date.now()
twice, once on the exp line (165) and once on the timestamp line (166);
the two reads are modelled as two instants nowMsExp and nowMsTs in
milliseconds, read in that order, which can differ. The code divides each
by 1000 and floors, which is Nat division here. -/
def generateToken (apiKey : String) (nowMsExp nowMsTs : Nat) (expSeconds : Nat) :
    Option SignedToken :=
  match jsSplitOn isDotChar apiKey with
  | id :: secret :: _ =>
    some ⟨id, nowMsExp / 1000 + expSeconds, nowMsTs / 1000, "HS256", "SIGN", secret⟩
  | _ => none

/-- generateToken with the default TTL argument expSeconds = 3600,
src/index.js line 161, as called at line 269. -/
def generateTokenDefault (apiKey : String) (nowMsExp nowMsTs : Nat) : Option SignedToken :=
  generateToken apiKey nowMsExp nowMsTs 3600

/-- readIngredients, src/index.js lines 176-186, applied to the text of the
input file: split on newlines, trim every line, keep the nonempty lines. -/
def readIngredients (data : String) : List String :=
  ((jsSplitOn isNewlineChar data).map jsTrim).filter (fun line => decide (0 < line.length))

/-- The per-line parsing at src/index.js lines 289-291: split the line on
Western or full-width commas; the trimmed first segment is the primary
(English) name and the trimmed second segment, when present, is the
secondary (Chinese) label, otherwise the label is empty. -/
def parseLine (line : String) : String × String :=
  let parts := jsSplitOn isCommaChar line
  (jsTrim (parts.headD ""), if 1 < parts.length then jsTrim (parts.getD 1 "") else "")

/-- The prompt construction at src/index.js lines 298-305: when the style
prompt is truthy the prompt is the name, a comma-space, and the style
prompt; otherwise it is the default template with the placeholder
substituted by the name. -/
def buildPrompt (stylePrompt : Option String) (ingredientEn : String) : String :=
  if jsTruthyStr stylePrompt then
    ingredientEn ++ ", " ++ stylePrompt.getD ""
  else
    jsReplaceFirst DEFAULT_PROMPT_TEMPLATE "{ingredient}" ingredientEn

/-- Outcome of the one vision-endpoint call made by analyzeImageStyle,
src/index.js lines 202-240: either the textual content reached through
response.data.choices[0].message.content, or a thrown error (network error,
non-success HTTP status, or a malformed reply making the field access
throw). -/
inductive VisionResult where
  | ok (content : String)
  | fail (msg : String)
deriving DecidableEq

/-- External state of the reference-image path: the file is absent, the
file exists but readFileSync throws, or the file is read and encodes to the
given base64 string, in which case the vision endpoint would answer with
the given result. -/
inductive StyleEnv where
  | noRefImage
  | readError (msg : String)
  | refImage (base64 : String) (resp : VisionResult)
deriving DecidableEq

/-- getReferenceImageBase64, src/index.js lines 189-199: none when the file
does not exist or reading it throws (the error is only warned about), the
base64 encoding otherwise. -/
def getReferenceImageBase64 : StyleEnv → Option String
  | .noRefImage => none
  | .readError _ => none
  | .refImage b _ => some b

/-- Outcome of the generation POST for one item, src/index.js lines
308-313: either a reply whose first entry carries the image url, or a
thrown error with a message and an optional structured error body. -/
inductive GenResp where
  | ok (url : String)
  | fail (msg : String) (body : Option String)
deriving DecidableEq

/-- Outcome of the streaming download for one item, src/index.js lines
243-257: the write stream finishes or errors. -/
inductive DlResp where
  | ok
  | fail (msg : String)
deriving DecidableEq

/-- External responses seen by one iteration of the item loop. -/
structure ItemEnv where
  gen : GenResp
  dl : DlResp
deriving DecidableEq

/-- Result of one iteration of the item loop, src/index.js lines 287-329:
the item completes and its file is written, or the generation call fails
(error message plus optional remote body, both logged), or the download
fails. In every case the loop continues with the next item. -/
inductive ItemOutcome where
  | done (filename : String)
  | generationFailed (msg : String) (body : Option String)
  | downloadFailed (filename : String) (msg : String)
deriving DecidableEq

/-- The output path built at src/index.js line 317: path.join of OUTPUT_DIR
and the primary name with a png extension. -/
def outputPath (name : String) : String :=
  OUTPUT_DIR ++ "/" ++ name ++ ".png"

/-- The body of the item loop, src/index.js lines 287-329, for one line:
parse the line, build the prompt, attempt the generation call and then the
download, catching failures per item. The pair holds the prompt sent to the
generation endpoint and the outcome. -/
def processItem (stylePrompt : Option String) (line : String) (ienv : ItemEnv) : String × ItemOutcome :=
  let ingredientEn := (parseLine line).1
  let prompt := buildPrompt stylePrompt ingredientEn
  match ienv.gen with
  | .fail m b => (prompt, .generationFailed m b)
  | .ok _ =>
    match ienv.dl with
    | .ok => (prompt, .done (outputPath ingredientEn))
    | .fail m => (prompt, .downloadFailed (outputPath ingredientEn) m)

/-- The item loop from index i on: one entry per remaining input line, in
order, each line handled with the external responses at its own index. -/
def processItemsFrom (stylePrompt : Option String) (envAt : Nat → ItemEnv) :
    Nat → List String → List (String × ItemOutcome)
  | _, [] => []
  | i, line :: rest =>
    processItem stylePrompt line (envAt i) :: processItemsFrom stylePrompt envAt (i + 1) rest

/-- The full item loop of main, src/index.js lines 287-329. -/
def processItems (stylePrompt : Option String) (lines : List String) (envAt : Nat → ItemEnv) :
    List (String × ItemOutcome) :=
  processItemsFrom stylePrompt envAt 0 lines

/-- Externally visible steps of a run, in the order main performs them:
ensuring the output directory, reading the input file, signing the token,
reading the reference image, the vision call, and per item the prompt
construction, the generation call and the download. -/
inductive Event where
  | ensureOutputDir
  | loadInput
  | signToken
  | readRefImage
  | extractStyle
  | buildPromptEv (i : Nat)
  | callGenerationEv (i : Nat)
  | downloadEv (i : Nat)
deriving DecidableEq

/-- Steps performed for one item: the prompt is always built and the
generation endpoint is always called; the download happens only when the
generation call succeeded. -/
def itemEvents (i : Nat) (ienv : ItemEnv) : List Event :=
  [.buildPromptEv i, .callGenerationEv i] ++
    (match ienv.gen with
     | .ok _ => [.downloadEv i]
     | .fail _ _ => [])

/-- Steps of the item loop from index i on. -/
def loopEvents (envAt : Nat → ItemEnv) : Nat → List String → List Event
  | _, [] => []
  | i, _ :: rest => itemEvents i (envAt i) ++ loopEvents envAt (i + 1) rest

/-- Steps of the style-extraction path, src/index.js lines 276-281: the
reference image is read when it exists, and the vision endpoint is called
only when the base64 string is truthy. -/
def styleEvents : StyleEnv → List Event
  | .noRefImage => []
  | .readError _ => [.readRefImage]
  | .refImage b _ => if b == "" then [.readRefImage] else [.readRefImage, .extractStyle]

/-- How a run ends: fatal exit at the startup key check, fatal exit inside
readIngredients, or normal completion of the item loop. -/
inductive RunResult where
  | fatalBadKey
  | fatalBadInput
  | completed
deriving DecidableEq

/-- The steps of main after a successful startup check and input read,
src/index.js lines 260-330: ensure the output directory, read the input,
sign the token, run the style path, then loop over the parsed items. -/
def mainTrace (data : String) (senv : StyleEnv) (envAt : Nat → ItemEnv) : List Event :=
  [.ensureOutputDir, .loadInput, .signToken] ++ styleEvents senv ++
    loopEvents envAt 0 (readIngredients data)

/-- The whole program, src/index.js lines 147-332: the module-level key
check runs before main; a failing check exits before any step. Inside main,
an unreadable input file (inputText = none) exits after the directory and
read steps, before the token is signed and before any network call. -/
def runProgram (apiKey : Option String) (inputText : Option String) (senv : StyleEnv)
    (envAt : Nat → ItemEnv) : List Event × RunResult :=
  if apiKeyCheckFails apiKey then
    ([], .fatalBadKey)
  else
    match inputText with
    | none => ([.ensureOutputDir, .loadInput], .fatalBadInput)
    | some data => (mainTrace data senv envAt, .completed)

/-- What remains on disk at the item output path after one loop
iteration. downloadImage opens the write stream with fs.createWriteStream
before issuing the GET, src/index.js line 244, so the path comes into
existence as soon as the download is attempted, and nothing deletes it
when the stream fails; a generation failure happens before downloadImage
is called, so no file is created for that item. -/
inductive FileEffect where
  | absent
  | created (filename : String)
  | written (filename : String)
deriving DecidableEq

/-- The disk effect of an item outcome: a completed item has its file
written, a generation failure leaves nothing, and a download failure
leaves the already-created empty or partial file at the output path. -/
def fileEffectOf : ItemOutcome → FileEffect
  | .done f => .written f
  | .generationFailed _ _ => .absent
  | .downloadFailed f _ => .created f

/-- The split of any character list is nonempty. -/
theorem splitPredL_ne_nil (p : Char → Bool) (l : List Char) : splitPredL p l ≠ [] := by
  cases l with
  | nil => simp [splitPredL]
  | cons c cs =>
    unfold splitPredL
    by_cases h : p c
    · simp [h]
    · simp only [h]
      cases hs : splitPredL p cs with
      | nil => simp
      | cons a as => simp

/-- When the list holds a separator character, the split has at least two
segments. -/
theorem two_le_splitPredL_length (p : Char → Bool) (l : List Char)
    (h : ∃ c ∈ l, p c = true) : 2 ≤ (splitPredL p l).length := by
  induction l with
  | nil => simp at h
  | cons c cs ih =>
    unfold splitPredL
    by_cases hc : p c
    · simp only [hc, if_true, List.length_cons]
      have hne := splitPredL_ne_nil p cs
      have : 1 ≤ (splitPredL p cs).length := by
        cases hs : splitPredL p cs with
        | nil => exact absurd hs hne
        | cons a as => simp
      omega
    · obtain ⟨d, hd, hpd⟩ := h
      rcases List.mem_cons.mp hd with rfl | hd
      · exact absurd hpd (by simp [hc])
      · have h2 := ih ⟨d, hd, hpd⟩
        simp only [hc, if_false]
        cases hs : splitPredL p cs with
        | nil => exact absurd hs (splitPredL_ne_nil p cs)
        | cons a as =>
          rw [hs] at h2
          simp at h2 ⊢
          omega

/-- The item loop yields exactly one entry per input line. -/
theorem processItemsFrom_length (sp : Option String) (envAt : Nat → ItemEnv)
    (n : Nat) (lines : List String) :
    (processItemsFrom sp envAt n lines).length = lines.length := by
  induction lines generalizing n with
  | nil => rfl
  | cons line rest ih => simp [processItemsFrom, ih]

/-- The entry of the item loop at offset j is the processing of line j with
the external responses at the absolute index n + j; it does not depend on
the responses at any other index. -/
theorem processItemsFrom_get (sp : Option String) (envAt : Nat → ItemEnv)
    (n : Nat) (lines : List String) (j : Nat) (h1 : j < lines.length)
    (h2 : j < (processItemsFrom sp envAt n lines).length) :
    (processItemsFrom sp envAt n lines).get ⟨j, h2⟩ =
      processItem sp (lines.get ⟨j, h1⟩) (envAt (n + j)) := by
  induction lines generalizing n j with
  | nil => simp at h1
  | cons line rest ih =>
    cases j with
    | zero => simp [processItemsFrom]
    | succ k =>
      have h1k : k < rest.length := by simpa using h1
      have h2k : k < (processItemsFrom sp envAt (n + 1) rest).length := by
        rw [processItemsFrom_length]; exact h1k
      have hrec := ih (n + 1) k h1k h2k
      have hn : n + 1 + k = n + (k + 1) := by omega
      calc (processItemsFrom sp envAt n (line :: rest)).get ⟨k + 1, h2⟩
          = (processItemsFrom sp envAt (n + 1) rest).get ⟨k, h2k⟩ := rfl
        _ = processItem sp (rest.get ⟨k, h1k⟩) (envAt (n + 1 + k)) := hrec
        _ = processItem sp ((line :: rest).get ⟨k + 1, h1⟩) (envAt (n + (k + 1))) := by
              rw [hn]; rfl

/-- A replacement string containing no dollar character passes through the
substitution processing unchanged. -/
theorem getSubstitution_no_dollar (matched before after : List Char) (rep : List Char)
    (h : ('$' : Char) ∉ rep) : getSubstitution matched before after rep = rep := by
  induction rep with
  | nil => rfl
  | cons c rest ih =>
    have hc : ¬(c = '$') := fun hh => h (by simp [hh])
    have hrest : ('$' : Char) ∉ rest := fun hh => h (List.mem_cons_of_mem c hh)
    cases rest with
    | nil => rfl
    | cons d rest2 =>
      unfold getSubstitution
      rw [if_neg hc, ih hrest]

/-- For a dollar-free replacement the template substitution is the literal
splice of the name into the default template. -/
theorem jsReplaceFirst_literal (name : String) (h : ('$' : Char) ∉ name.data) :
    jsReplaceFirst DEFAULT_PROMPT_TEMPLATE "{ingredient}" name =
      "A flat illustration of " ++ name ++
        ", centered, clean white background, simple style, no text, no watermark, high quality, for mobile app UI" := by
  have hred : jsReplaceFirst DEFAULT_PROMPT_TEMPLATE "{ingredient}" name =
      String.mk ("A flat illustration of ".data ++
        (getSubstitution "{ingredient}".data "A flat illustration of ".data
            (", centered, clean white background, simple style, no text, no watermark, high quality, for mobile app UI").data
            name.data ++
          (", centered, clean white background, simple style, no text, no watermark, high quality, for mobile app UI").data)) := rfl
  rw [hred, getSubstitution_no_dollar _ _ _ name.data h]
  rfl

/-- Counterexample to claim C1 as stated: the replacement string of
String.prototype.replace undergoes dollar substitution, so for the
reachable primary name consisting of a dollar and an ampersand the code
re-inserts the matched placeholder text instead of the name: the prompt is
the unchanged template, not the template with the name spliced in. -/
theorem C1_cex :
    buildPrompt none "$&" = DEFAULT_PROMPT_TEMPLATE ∧
      buildPrompt none "$&" ≠
        "A flat illustration of $&, centered, clean white background, simple style, no text, no watermark, high quality, for mobile app UI" := by
  decide

/-- Claim C1 as amended: with a truthy style descriptor the prompt is the
primary name, a comma and a space, and the descriptor; with none, the
prompt is the default template with the placeholder replaced by the
primary name under the replacement rules of String.prototype.replace,
which expand dollar sequences in the name; for a name without a dollar
character this is the literal splice, as in the Apple examples, while a
name of a dollar and an ampersand reproduces the placeholder. -/
theorem C1_buildPrompt :
    (∀ name s : String, s ≠ "" → buildPrompt (some s) name = name ++ ", " ++ s) ∧
    (∀ name : String,
      buildPrompt none name = jsReplaceFirst DEFAULT_PROMPT_TEMPLATE "{ingredient}" name) ∧
    (∀ name : String, ('$' : Char) ∉ name.data →
      jsReplaceFirst DEFAULT_PROMPT_TEMPLATE "{ingredient}" name =
        "A flat illustration of " ++ name ++
          ", centered, clean white background, simple style, no text, no watermark, high quality, for mobile app UI") ∧
    buildPrompt (some "watercolor, pastel tones") "Apple" = "Apple, watercolor, pastel tones" ∧
    buildPrompt none "Apple" =
      "A flat illustration of Apple, centered, clean white background, simple style, no text, no watermark, high quality, for mobile app UI" ∧
    buildPrompt none "$&" = DEFAULT_PROMPT_TEMPLATE := by
  refine ⟨?_, fun name => rfl, fun name h => jsReplaceFirst_literal name h, rfl, by decide, by decide⟩
  intro name s hs
  have hb : (s == "") = false := by simpa using hs
  simp [buildPrompt, jsTruthyStr, hb]

/-- Witness for C1 as amended, at the inputs named by the claim. -/
theorem C1_witness :
    "watercolor, pastel tones" ≠ "" ∧
      buildPrompt (some "watercolor, pastel tones") "Apple" = "Apple, watercolor, pastel tones" ∧
      ('$' : Char) ∉ "Apple".data ∧
      jsReplaceFirst DEFAULT_PROMPT_TEMPLATE "{ingredient}" "Apple" =
        "A flat illustration of " ++ "Apple" ++
          ", centered, clean white background, simple style, no text, no watermark, high quality, for mobile app UI" :=
  ⟨by decide, C1_buildPrompt.1 "Apple" "watercolor, pastel tones" (by decide),
   by decide, C1_buildPrompt.2.2.1 "Apple" (by decide)⟩

/-- Whenever the signer accepts a credential, the payload expiry is the
floored first clock read plus the TTL, and the payload timestamp is the
floored second clock read. -/
theorem generateToken_fields (apiKey : String) (nowMsExp nowMsTs ttl : Nat)
    (tok : SignedToken) (h : generateToken apiKey nowMsExp nowMsTs ttl = some tok) :
    tok.exp = nowMsExp / 1000 + ttl ∧ tok.timestamp = nowMsTs / 1000 := by
  unfold generateToken at h
  cases hs : jsSplitOn isDotChar apiKey with
  | nil => rw [hs] at h; simp at h
  | cons a as =>
    cases as with
    | nil => rw [hs] at h; simp at h
    | cons b bs =>
      rw [hs] at h
      simp only [Option.some.injEq] at h
      subst h
      exact ⟨rfl, rfl⟩

/-- Counterexample to claim C2 as stated: the payload reads Date.now()
once for the expiry and once again for the timestamp; when a second
boundary falls between the two reads, here 999 and 1000 milliseconds, the
expiry is one less than the timestamp plus the TTL. -/
theorem C2_cex :
    generateToken "a.b" 999 1000 3600 =
        some ⟨"a", 999 / 1000 + 3600, 1000 / 1000, "HS256", "SIGN", "b"⟩ ∧
      (⟨"a", 999 / 1000 + 3600, 1000 / 1000, "HS256", "SIGN", "b"⟩ : SignedToken).exp ≠
        (⟨"a", 999 / 1000 + 3600, 1000 / 1000, "HS256", "SIGN", "b"⟩ : SignedToken).timestamp +
          3600 := by
  decide

/-- Claim C2 as amended: for every credential the signer accepts and every
TTL, the payload expiry is the floored first clock read plus the TTL and
the payload timestamp is the floored second clock read, so the expiry
equals the timestamp plus the TTL whenever the two Date.now() reads fall
in the same second, in particular whenever they return the same
millisecond; with the default TTL of 3600 and one instant the equality
holds unconditionally. -/
theorem C2_tokenExpiry :
    (∀ (apiKey : String) (nowMsExp nowMsTs ttl : Nat) (tok : SignedToken),
      generateToken apiKey nowMsExp nowMsTs ttl = some tok →
        tok.exp = nowMsExp / 1000 + ttl ∧ tok.timestamp = nowMsTs / 1000 ∧
          (nowMsExp / 1000 = nowMsTs / 1000 → tok.exp = tok.timestamp + ttl)) ∧
    (∀ (apiKey : String) (nowMs : Nat) (tok : SignedToken),
      generateTokenDefault apiKey nowMs nowMs = some tok →
        tok.exp = tok.timestamp + 3600) := by
  constructor
  · intro k e t ttl tok h
    obtain ⟨h1, h2⟩ := generateToken_fields k e t ttl tok h
    exact ⟨h1, h2, fun hsec => by rw [h1, h2, hsec]⟩
  · intro k n tok h
    obtain ⟨h1, h2⟩ := generateToken_fields k n n 3600 tok h
    rw [h1, h2]

/-- Witness for C2 as amended on the credential a.b, with both clock reads
at the same concrete instant. -/
theorem C2_witness :
    generateToken "a.b" 1700000000123 1700000000123 3600 =
        some ⟨"a", 1700000000 + 3600, 1700000000, "HS256", "SIGN", "b"⟩ ∧
      (⟨"a", 1700000000 + 3600, 1700000000, "HS256", "SIGN", "b"⟩ : SignedToken).exp =
        (⟨"a", 1700000000 + 3600, 1700000000, "HS256", "SIGN", "b"⟩ : SignedToken).timestamp +
          3600 :=
  ⟨by decide,
   (C2_tokenExpiry.1 "a.b" 1700000000123 1700000000123 3600 _ (by decide)).2.2 rfl⟩

/-- Claim C5: a missing credential, an empty credential, or one whose
dot-split does not have at least the two id.secret segments makes the run
terminate fatally at the startup check, with no step performed: no network
call and no other work. -/
theorem C5_fatalStartup :
    ∀ (apiKey inputText : Option String) (senv : StyleEnv) (envAt : Nat → ItemEnv),
      (apiKey = none ∨ apiKey = some "" ∨
        (∃ s, apiKey = some s ∧ (jsSplitOn isDotChar s).length < 2)) →
      runProgram apiKey inputText senv envAt = ([], .fatalBadKey) := by
  intro apiKey inputText senv envAt h
  have hfail : apiKeyCheckFails apiKey = true := by
    rcases h with rfl | rfl | ⟨s, rfl, hlen⟩
    · rfl
    · rfl
    · cases hv : s.data.any isDotChar with
      | false => simp [apiKeyCheckFails, hv]
      | true =>
        obtain ⟨c, hc, hpc⟩ := List.any_eq_true.mp hv
        have h2 := two_le_splitPredL_length isDotChar s.data ⟨c, hc, hpc⟩
        unfold jsSplitOn at hlen
        rw [List.length_map] at hlen
        omega
  simp [runProgram, hfail]

/-- Witness for C5 on a credential with no separator. -/
theorem C5_witness :
    runProgram (some "abc") (some "Apple") StyleEnv.noRefImage
        (fun _ => ItemEnv.mk (GenResp.ok "u") DlResp.ok) = ([], RunResult.fatalBadKey) :=
  C5_fatalStartup (some "abc") (some "Apple") StyleEnv.noRefImage
    (fun _ => ItemEnv.mk (GenResp.ok "u") DlResp.ok)
    (Or.inr (Or.inr ⟨"abc", rfl, by decide⟩))

/-- Keeping the lines of positive length and counting the lines of length
zero partitions a line list. -/
theorem length_filter_pos_add_countP_zero (l : List String) :
    (l.filter (fun s => decide (0 < s.length))).length +
        l.countP (fun s => decide (s.length = 0)) = l.length := by
  induction l with
  | nil => rfl
  | cons s rest ih =>
    by_cases h : s.length = 0
    · have h0 : ¬(0 < s.length) := by omega
      simp [List.filter_cons, List.countP_cons, h, h0]
      omega
    · have h0 : 0 < s.length := Nat.pos_of_ne_zero h
      simp [List.filter_cons, List.countP_cons, h, h0]
      omega

/-- Claim C3: on any input text, the loader returns the trimmed lines that
are nonempty, as many of them as there are lines nonempty after trimming,
in the original order (a sublist of the trimmed line list); together with
the number of blank lines this accounts for every line, and every returned
item is nonempty. -/
theorem C3_loader :
    ∀ data : String,
      (readIngredients data).length =
        ((jsSplitOn isNewlineChar data).map jsTrim).countP (fun line => decide (0 < line.length)) ∧
      List.Sublist (readIngredients data) ((jsSplitOn isNewlineChar data).map jsTrim) ∧
      (readIngredients data).length +
          ((jsSplitOn isNewlineChar data).map jsTrim).countP (fun line => decide (line.length = 0)) =
        (jsSplitOn isNewlineChar data).length ∧
      ∀ line ∈ readIngredients data, 0 < line.length := by
  intro data
  refine ⟨?_, ?_, ?_, ?_⟩
  · rw [readIngredients, List.countP_eq_length_filter]
  · exact List.filter_sublist _
  · rw [readIngredients, length_filter_pos_add_countP_zero, List.length_map]
  · intro line hline
    rw [readIngredients] at hline
    exact of_decide_eq_true (List.mem_filter.mp hline).2

/-- Witness for C3 on a three-line input with one blank line. -/
theorem C3_witness :
    "Apple" ∈ readIngredients "Apple\n \nBanana" ∧ 0 < "Apple".length :=
  ⟨by decide, (C3_loader "Apple\n \nBanana").2.2.2 "Apple" (by decide)⟩

/-- Claim C4: each line is split on Western or full-width commas; the
trimmed first segment is the primary name, the trimmed second segment if
present is the secondary label, and otherwise the label is empty; in
particular Apple comma 苹果 parses to the pair Apple and 苹果, and Banana
parses to Banana with an empty label. -/
theorem C4_lineParsing :
    (∀ (line p : String) (rest : List String),
      jsSplitOn isCommaChar line = p :: rest → (parseLine line).1 = jsTrim p) ∧
    (∀ (line p q : String) (rest : List String),
      jsSplitOn isCommaChar line = p :: q :: rest → (parseLine line).2 = jsTrim q) ∧
    (∀ line p : String, jsSplitOn isCommaChar line = [p] → parseLine line = (jsTrim p, "")) ∧
    parseLine "Apple,苹果" = ("Apple", "苹果") ∧
    parseLine "Banana" = ("Banana", "") := by
  refine ⟨?_, ?_, ?_, by decide, by decide⟩
  · intro line p rest h
    simp [parseLine, h]
  · intro line p q rest h
    simp [parseLine, h]
  · intro line p h
    simp [parseLine, h]

/-- Witness for C4 on the mixed-language line from the claim. -/
theorem C4_witness :
    jsSplitOn isCommaChar "Apple,苹果" = "Apple" :: ["苹果"] ∧
      (parseLine "Apple,苹果").1 = jsTrim "Apple" :=
  ⟨by decide, C4_lineParsing.1 "Apple,苹果" "Apple" ["苹果"] (by decide)⟩

/-- Counterexample to claim C8 as stated: on the input consisting of the
single character comma, the loader keeps the line (it is nonempty after
trimming), yet the primary name parsed from it is the empty string. -/
theorem C8_cex :
    readIngredients "," = [","] ∧ (parseLine ",").1 = "" := by
  decide

/-- Claim C8 as amended: lines empty after trimming are discarded, so
every loader item is nonempty; the primary name is the trimmed first
comma-separated segment of the item, which is nonempty whenever that
trimmed segment is nonempty, but is empty for an item whose first segment
is blank, such as a line starting with a comma. -/
theorem C8_amended :
    (∀ data line : String, line ∈ readIngredients data → 0 < line.length) ∧
    (∀ line : String,
      (parseLine line).1 = jsTrim ((jsSplitOn isCommaChar line).headD "")) ∧
    (∀ line : String,
      jsTrim ((jsSplitOn isCommaChar line).headD "") ≠ "" → (parseLine line).1 ≠ "") := by
  refine ⟨?_, fun line => rfl, ?_⟩
  · intro data line h
    rw [readIngredients] at h
    exact of_decide_eq_true (List.mem_filter.mp h).2
  · intro line h
    simpa [parseLine] using h

/-- Witness for C8 as amended. -/
theorem C8_witness :
    "Apple" ∈ readIngredients "Apple" ∧ 0 < "Apple".length :=
  ⟨by decide, C8_amended.1 "Apple" "Apple" (by decide)⟩

/-- Counterexample to claim C7 as stated: an item whose generation call
succeeds but whose download fails does not end with no output file; the
write stream has already created the file at the output path and nothing
removes it. -/
theorem C7_cex :
    (processItem none "Apple" (ItemEnv.mk (GenResp.ok "u") (DlResp.fail "stream error"))).2 =
        ItemOutcome.downloadFailed (outputPath "Apple") "stream error" ∧
      fileEffectOf
          (processItem none "Apple"
            (ItemEnv.mk (GenResp.ok "u") (DlResp.fail "stream error"))).2 =
        FileEffect.created "output/Apple.png" ∧
      FileEffect.created "output/Apple.png" ≠ FileEffect.absent := by
  decide

/-- Claim C7 as amended: a generation-call or download failure for one
item is caught at the per-item boundary, so the loop yields one entry per
input line however the external calls behave, and an item whose
generation call and download both succeed ends as done with its own
output file whatever happens to every other item; an item whose
generation call fails leaves no output file, while an item whose download
fails leaves the already-created empty or partial file at its output
path. -/
theorem C7_perItemIsolation :
    (∀ (sp : Option String) (lines : List String) (envAt : Nat → ItemEnv) (j : Nat)
      (h1 : j < lines.length) (u : String),
      envAt j = ItemEnv.mk (GenResp.ok u) DlResp.ok →
      (processItems sp lines envAt).length = lines.length ∧
      ∃ h2 : j < (processItems sp lines envAt).length,
        ((processItems sp lines envAt).get ⟨j, h2⟩).2 =
          ItemOutcome.done (outputPath (parseLine (lines.get ⟨j, h1⟩)).1)) ∧
    (∀ (sp : Option String) (line m : String) (b : Option String) (dl : DlResp),
      fileEffectOf (processItem sp line (ItemEnv.mk (GenResp.fail m b) dl)).2 =
        FileEffect.absent) ∧
    (∀ (sp : Option String) (line u m : String),
      fileEffectOf (processItem sp line (ItemEnv.mk (GenResp.ok u) (DlResp.fail m))).2 =
        FileEffect.created (outputPath (parseLine line).1)) := by
  refine ⟨?_, fun sp line m b dl => rfl, fun sp line u m => rfl⟩
  intro sp lines envAt j h1 u henv
  have hlen : (processItemsFrom sp envAt 0 lines).length = lines.length :=
    processItemsFrom_length sp envAt 0 lines
  have hj2 : j < (processItemsFrom sp envAt 0 lines).length := by rw [hlen]; exact h1
  have hg := processItemsFrom_get sp envAt 0 lines j h1 hj2
  refine ⟨hlen, hj2, ?_⟩
  have h2nd := congrArg Prod.snd hg
  rw [Nat.zero_add, henv] at h2nd
  exact h2nd.trans rfl

/-- Witness for C7: three items where the second generation call fails;
the third item still completes with its own output file. -/
theorem C7_witness :
    (fun i => if i = 1 then ItemEnv.mk (GenResp.fail "boom" none) DlResp.ok
              else ItemEnv.mk (GenResp.ok "u") DlResp.ok) 2 =
        ItemEnv.mk (GenResp.ok "u") DlResp.ok ∧
      ((processItems none ["Apple", "Banana", "Cherry"]
            (fun i => if i = 1 then ItemEnv.mk (GenResp.fail "boom" none) DlResp.ok
                      else ItemEnv.mk (GenResp.ok "u") DlResp.ok)).length =
          (["Apple", "Banana", "Cherry"] : List String).length ∧
        ∃ h2 : 2 < (processItems none ["Apple", "Banana", "Cherry"]
            (fun i => if i = 1 then ItemEnv.mk (GenResp.fail "boom" none) DlResp.ok
                      else ItemEnv.mk (GenResp.ok "u") DlResp.ok)).length,
          ((processItems none ["Apple", "Banana", "Cherry"]
              (fun i => if i = 1 then ItemEnv.mk (GenResp.fail "boom" none) DlResp.ok
                        else ItemEnv.mk (GenResp.ok "u") DlResp.ok)).get ⟨2, h2⟩).2 =
            ItemOutcome.done
              (outputPath
                (parseLine ((["Apple", "Banana", "Cherry"] : List String).get
                  ⟨2, by decide⟩)).1)) :=
  ⟨by decide,
   C7_perItemIsolation.1 none ["Apple", "Banana", "Cherry"]
     (fun i => if i = 1 then ItemEnv.mk (GenResp.fail "boom" none) DlResp.ok
               else ItemEnv.mk (GenResp.ok "u") DlResp.ok) 2 (by decide) "u" (by decide)⟩

example : jsSplitOn isCommaChar "Apple,苹果" = ["Apple", "苹果"] := by decide
example : jsSplitOn isDotChar "a.b.c" = ["a", "b", "c"] := by decide
example : jsSplitOn isDotChar "" = [""] := by decide
example : jsTrim "  hi\r" = "hi" := by decide
example : readIngredients "Apple,苹果\n \nBanana\n" = ["Apple,苹果", "Banana"] := by decide
example : parseLine "Apple,苹果" = ("Apple", "苹果") := by decide
example : parseLine "Banana" = ("Banana", "") := by decide
example :
    buildPrompt none "Apple" =
      "A flat illustration of Apple, centered, clean white background, simple style, no text, no watermark, high quality, for mobile app UI" := by
  decide

end ImgGen
